import Mathlib

/-!
Verification development for the real-time frame delivery and synchronization
engine (SimTK::Visualizer) and the orientation value types.

The repository ships only the public header `Visualizer.h` for the engine; the
implementation object (`VisualizerRep`) is not among the sources.  Every
definition below that embeds engine behaviour is therefore modelled from the
design specification, as indicated in its doc comment.  Wall-clock and
simulated time are embedded as rationals so that every operation is executable
and every concrete run can be evaluated by the kernel.
-/

namespace SimbodyViz

/-- Modelled from the spec: a Frame is an immutable snapshot consisting of a
simulated-time value and a reference to the state needed to generate geometry
(the state reference is embedded as an identifier). -/
structure Frame where
  simTime : ℚ
  stateId : ℕ
deriving DecidableEq

/-- The three operating modes declared in `Visualizer.h` (`enum Mode`). -/
inductive Mode where
  | PassThrough
  | Sampling
  | RealTime
deriving DecidableEq

/-- Modelled from the spec: ModeConfig holds the active mode, the desired
frame rate (0 meaning "use mode default"), the real-time scale and the desired
buffer length in seconds. -/
structure ModeConfig where
  mode : Mode
  desiredFrameRate : ℚ
  realTimeScale : ℚ
  desiredBufferSeconds : ℚ
deriving DecidableEq

/-- Default frame rate: 30 frames per second for RealTime and Sampling. -/
def defaultFrameRate : ℚ := 30

/-- Default desired buffer length: 150 ms of playback. -/
def defaultBufferLengthInSec : ℚ := 3 / 20

/-- Modelled from the spec: the frame rate actually used for scheduling and
buffer sizing; the sentinel (zero or non-positive) desired rate selects the
default of 30 frames per second. -/
def scheduledFrameRate (cfg : ModeConfig) : ℚ :=
  if cfg.desiredFrameRate ≤ 0 then defaultFrameRate else cfg.desiredFrameRate

/-- Modelled from the spec: the effective frame rate by mode; with the rate
sentinel unset, PassThrough is unbounded (`none`) while Sampling and RealTime
use the default 30 frames per second. -/
def effectiveFrameRate (cfg : ModeConfig) : Option ℚ :=
  if cfg.desiredFrameRate ≤ 0 then
    match cfg.mode with
    | Mode.PassThrough => none
    | Mode.Sampling => some defaultFrameRate
    | Mode.RealTime => some defaultFrameRate
  else some cfg.desiredFrameRate

/-- Mode-dependent default frame rate reached through the sentinel. -/
def modeDefaultRate : Mode → Option ℚ
  | Mode.PassThrough => none
  | Mode.Sampling => some defaultFrameRate
  | Mode.RealTime => some defaultFrameRate

/-- One frame interval at the scheduled frame rate. -/
def frameInterval (cfg : ModeConfig) : ℚ :=
  1 / scheduledFrameRate cfg

/-- Modelled from the spec: the actual buffer capacity in frames is the
desired buffer length divided by the frame interval, rounded to the nearest
whole frame, with a floor of one frame whenever the requested length is
strictly positive and zero when zero buffering is requested. -/
def actualBufferFrames (cfg : ModeConfig) : ℕ :=
  if cfg.desiredBufferSeconds ≤ 0 then 0
  else (max 1 (round (cfg.desiredBufferSeconds * scheduledFrameRate cfg))).toNat

/-- Modelled from the spec: monotone counters and occupancy watermarks of the
Statistics Collector. -/
structure Stats where
  submitted : ℕ
  rendered : ℕ
  dropped : ℕ
  resyncs : ℕ
  minOccupancy : ℕ
  maxOccupancy : ℕ
deriving DecidableEq

/-- All-zero statistics. -/
def Stats.zero : Stats := ⟨0, 0, 0, 0, 0, 0⟩

/-- Modelled from the spec: the ClockAnchor pairs a reference simulated time
with the wall-clock instant corresponding to it. -/
structure ClockAnchor where
  referenceSimTime : ℚ
  referenceWallTime : ℚ
deriving DecidableEq

/-- Modelled from the spec: the engine state — configuration, the bounded
FIFO of pending frames, the clock anchor, the Sampling-mode next eligible
sample time, the PassThrough-mode last presentation instant, and statistics.
This stands in for the missing `VisualizerRep` implementation object. -/
structure Engine where
  config : ModeConfig
  buffer : List Frame
  anchor : ClockAnchor
  nextSampleTime : Option ℚ
  lastPresentWall : Option ℚ
  stats : Stats
deriving DecidableEq

/-- Freshly constructed engine: PassThrough mode, unset frame rate, scale one,
default buffer request, empty buffer, zeroed statistics. -/
def Engine.init : Engine where
  config := ⟨Mode.PassThrough, 0, 1, defaultBufferLengthInSec⟩
  buffer := []
  anchor := ⟨0, 0⟩
  nextSampleTime := none
  lastPresentWall := none
  stats := Stats.zero

/-- Modelled from the spec: expected wall-clock presentation time of a
simulated time, `referenceWallTime + (simTime - referenceSimTime) / scale`. -/
def expectedWallTime (e : Engine) (simTime : ℚ) : ℚ :=
  e.anchor.referenceWallTime
    + (simTime - e.anchor.referenceSimTime) / e.config.realTimeScale

/-- Result of one submission or delivery step.  `presented t f` means frame
`f` was handed to the renderer at wall-clock time `t` (for PassThrough, `t`
may lie after the call instant: the caller was blocked until then);
`droppedFrame` means the frame was discarded and the call returned at once;
`queued` means the frame was enqueued; `blocked` means the call would block
waiting on the buffer. -/
inductive Outcome where
  | presented (wallTime : ℚ) (f : Frame)
  | droppedFrame
  | queued
  | blocked
deriving DecidableEq

/-- Set the operating mode (`Visualizer::setMode`). -/
def setMode (m : Mode) (e : Engine) : Engine :=
  {e with config := {e.config with mode := m}}

/-- Modelled from the spec: `Visualizer::setDesiredFrameRate`; zero (and any
non-positive rate) selects the sentinel that restores the mode default. -/
def setDesiredFrameRate (r : ℚ) (e : Engine) : Engine :=
  {e with config := {e.config with desiredFrameRate := if r ≤ 0 then 0 else r}}

/-- `Visualizer::getDesiredFrameRate`. -/
def getDesiredFrameRate (e : Engine) : ℚ :=
  e.config.desiredFrameRate

/-- Modelled from the spec: `Visualizer::setRealTimeScale`; zero or negative
scale is normalized to the default ratio of one. -/
def setRealTimeScale (s : ℚ) (e : Engine) : Engine :=
  {e with config := {e.config with realTimeScale := if s ≤ 0 then 1 else s}}

/-- `Visualizer::getRealTimeScale`. -/
def getRealTimeScale (e : Engine) : ℚ :=
  e.config.realTimeScale

/-- Modelled from the spec: `Visualizer::setDesiredBufferLengthInSec`; a
negative request restores the default buffer length. -/
def setDesiredBufferLengthInSec (b : ℚ) (e : Engine) : Engine :=
  {e with config := {e.config with desiredBufferSeconds :=
      if b < 0 then defaultBufferLengthInSec else b}}

/-- `Visualizer::getDesiredBufferLengthInSec`. -/
def getDesiredBufferLengthInSec (e : Engine) : ℚ :=
  e.config.desiredBufferSeconds

/-- `Visualizer::getActualBufferLengthInFrames`. -/
def getActualBufferLengthInFrames (e : Engine) : ℕ :=
  actualBufferFrames e.config

/-- `Visualizer::clearStats`: reset all counters and watermarks to zero. -/
def clearStats (e : Engine) : Engine :=
  {e with stats := Stats.zero}

/-- Human-readable one-line rendering of the statistics. -/
def statsLine (s : Stats) : String :=
  "submitted " ++ toString s.submitted ++ " rendered " ++ toString s.rendered
    ++ " dropped " ++ toString s.dropped ++ " resyncs " ++ toString s.resyncs
    ++ " occupancy " ++ toString s.minOccupancy ++ " to "
    ++ toString s.maxOccupancy

/-- `Visualizer::dumpStats`: produce the snapshot; the engine is returned
unchanged, witnessing that dumping mutates nothing. -/
def dumpStats (e : Engine) : String × Engine :=
  (statsLine e.stats, e)

/-- Increment the submitted counter; every `report` call does this first. -/
def bumpSubmitted (e : Engine) : Engine :=
  {e with stats := {e.stats with submitted := e.stats.submitted + 1}}

/-- Modelled from the spec: the instant at which a PassThrough frame is
presented — the call instant, delayed to one frame interval past the previous
presentation when a finite rate is in force. -/
def passThroughPresentTime (e : Engine) (now : ℚ) : ℚ :=
  match e.lastPresentWall with
  | none => now
  | some tl =>
    match effectiveFrameRate e.config with
    | none => now
    | some r => max now (tl + 1 / r)

/-- Modelled from the spec: PassThrough submission presents every frame,
blocking the caller until the rate-limited presentation instant. -/
def reportPassThrough (e : Engine) (now : ℚ) (f : Frame) : Engine × Outcome :=
  ({e with lastPresentWall := some (passThroughPresentTime e now),
           stats := {e.stats with rendered := e.stats.rendered + 1}},
   Outcome.presented (passThroughPresentTime e now) f)

/-- Modelled from the spec: after a Sampling presentation the next eligible
time advances by one frame interval, or, when several intervals have elapsed,
to the next interval boundary at or after the call instant. -/
def advanceSampleTime (θ now iv : ℚ) : ℚ :=
  if now < θ + iv then θ + iv
  else θ + ((⌈(now - θ) / iv⌉ : ℤ) : ℚ) * iv

/-- Modelled from the spec: Sampling submission presents the frame when the
next eligible time has been reached (initializing it at the first call) and
otherwise discards it, counting a drop, without blocking. -/
def reportSampling (e : Engine) (now : ℚ) (f : Frame) : Engine × Outcome :=
  match e.nextSampleTime with
  | none =>
      ({e with nextSampleTime := some (now + frameInterval e.config),
               stats := {e.stats with rendered := e.stats.rendered + 1}},
       Outcome.presented now f)
  | some θ =>
      if θ ≤ now then
        ({e with nextSampleTime :=
                   some (advanceSampleTime θ now (frameInterval e.config)),
                 stats := {e.stats with rendered := e.stats.rendered + 1}},
         Outcome.presented now f)
      else
        ({e with stats := {e.stats with dropped := e.stats.dropped + 1}},
         Outcome.droppedFrame)

/-- Modelled from the spec: RealTime submission.  A frame whose expected wall
time is already past by more than one frame interval triggers
resynchronization: stale queued frames whose expected time has also passed are
discarded, the late frame is presented immediately, a resync is recorded and
the clock anchor is rewritten to the frame just presented.  A frame expected
in the future is enqueued when the buffer has room and otherwise blocks the
caller.  A frame due within one interval is presented directly. -/
def reportRealTime (e : Engine) (now : ℚ) (f : Frame) : Engine × Outcome :=
  if frameInterval e.config < now - expectedWallTime e f.simTime then
    ({e with
        buffer := e.buffer.filter fun q =>
          decide (now < expectedWallTime e q.simTime),
        anchor := ⟨f.simTime, now⟩,
        stats := {e.stats with
          rendered := e.stats.rendered + 1,
          dropped := e.stats.dropped + (e.buffer.length -
            (e.buffer.filter fun q =>
              decide (now < expectedWallTime e q.simTime)).length),
          resyncs := e.stats.resyncs + 1}},
     Outcome.presented now f)
  else if now < expectedWallTime e f.simTime then
    if e.buffer.length < actualBufferFrames e.config then
      ({e with buffer := e.buffer ++ [f],
               stats := {e.stats with
                 maxOccupancy := max e.stats.maxOccupancy
                   (e.buffer.length + 1)}},
       Outcome.queued)
    else (e, Outcome.blocked)
  else
    ({e with stats := {e.stats with rendered := e.stats.rendered + 1}},
     Outcome.presented now f)

/-- Modelled from the spec: `Visualizer::report`, the submission entry point,
dispatching on the active mode after counting the submission. -/
def report (e : Engine) (now : ℚ) (f : Frame) : Engine × Outcome :=
  if e.config.mode = Mode.PassThrough then
    reportPassThrough (bumpSubmitted e) now f
  else if e.config.mode = Mode.Sampling then
    reportSampling (bumpSubmitted e) now f
  else
    reportRealTime (bumpSubmitted e) now f

/-- Modelled from the spec: the consumer side of the Frame Buffer — remove
and present the oldest queued frame, blocking when the buffer is empty. -/
def drainNext (e : Engine) (now : ℚ) : Engine × Outcome :=
  match e.buffer with
  | [] => (e, Outcome.blocked)
  | h :: t =>
      ({e with buffer := t,
               stats := {e.stats with
                 rendered := e.stats.rendered + 1,
                 minOccupancy := min e.stats.minOccupancy t.length}},
       Outcome.presented now h)

/-- Run a producer trace: submit each (wall time, frame) pair in order. -/
def runReports : Engine → List (ℚ × Frame) → Engine × List Outcome
  | e, [] => (e, [])
  | e, c :: rest =>
      ((runReports (report e c.1 c.2).1 rest).1,
       (report e c.1 c.2).2 :: (runReports (report e c.1 c.2).1 rest).2)

/-- Frames carried by the presented outcomes, in order. -/
def presentedFrames (os : List Outcome) : List Frame :=
  os.filterMap fun o =>
    match o with
    | Outcome.presented _ f => some f
    | _ => none

/-- Presentation instants of the presented outcomes, in order. -/
def presentedTimes (os : List Outcome) : List ℚ :=
  os.filterMap fun o =>
    match o with
    | Outcome.presented t _ => some t
    | _ => none

/-- Spacing property: every instant in the list is at least `iv` after the
instant two positions before it. -/
def twoApart (iv : ℚ) : List ℚ → Prop
  | a :: b :: c :: rest => a + iv ≤ c ∧ twoApart iv (b :: c :: rest)
  | _ => True

/-- Spacing property: every instant in the list is at least `iv` after the
instant immediately before it. -/
def consecGapsAtLeast (iv : ℚ) : List ℚ → Prop
  | a :: b :: rest => a + iv ≤ b ∧ consecGapsAtLeast iv (b :: rest)
  | _ => True

namespace Geom

/-- Scalar of the numerics layer: a real value together with a NaN flag,
embedding the IEEE behaviour the source relies on
(`NTraits<Real>::getNaN()` and NaN propagation through arithmetic). -/
structure SReal where
  isNaN : Bool
  val : ℝ

/-- The quiet NaN used by default-constructed objects. -/
noncomputable def nanR : SReal := ⟨true, 0⟩

/-- A finite real scalar. -/
noncomputable def finR (x : ℝ) : SReal := ⟨false, x⟩

/-- Addition with NaN propagation. -/
noncomputable def SReal.add (a b : SReal) : SReal :=
  ⟨a.isNaN || b.isNaN, a.val + b.val⟩

/-- Multiplication with NaN propagation. -/
noncomputable def SReal.mul (a b : SReal) : SReal :=
  ⟨a.isNaN || b.isNaN, a.val * b.val⟩

open Classical in
/-- Division with NaN propagation; a zero divisor also yields NaN (the only
zero-divisor case reached below is 0/0). -/
noncomputable def SReal.div (a b : SReal) : SReal :=
  ⟨a.isNaN || b.isNaN || decide (b.val = 0), a.val / b.val⟩

open Classical in
/-- Square root with NaN propagation; a negative operand yields NaN. -/
noncomputable def SReal.sqrt (a : SReal) : SReal :=
  ⟨a.isNaN || decide (a.val < 0), Real.sqrt a.val⟩

/-- A 3-vector of scalars (the numerics layer's Vec3). -/
structure Vec3 where
  x : SReal
  y : SReal
  z : SReal

/-- The Euclidean norm used by `v.norm()`. -/
noncomputable def Vec3.norm (v : Vec3) : SReal :=
  SReal.sqrt ((v.x.mul v.x).add ((v.y.mul v.y).add (v.z.mul v.z)))

/-- Componentwise division of a vector by a scalar, as in `v/v.norm()`. -/
noncomputable def Vec3.divScalar (v : Vec3) (s : SReal) : Vec3 :=
  ⟨v.x.div s, v.y.div s, v.z.div s⟩

/-- Embedded from `Orientation.h`: the UnitVec3 wrapper holding the stored
direction `dir`. -/
structure UnitVec3 where
  dir : Vec3

/-- Embedded from `Orientation.h`:
`UnitVec3() : dir(NTraits<Real>::getNaN()) { }` — the default constructor
fills every component of the direction with NaN. -/
noncomputable def UnitVec3.mkDefault : UnitVec3 := ⟨⟨nanR, nanR, nanR⟩⟩

/-- Embedded from `Orientation.h`:
`explicit UnitVec3(const Vec3& v) : dir(v/v.norm()) { }`. -/
noncomputable def UnitVec3.ofVec3 (v : Vec3) : UnitVec3 :=
  ⟨v.divScalar v.norm⟩

end Geom

theorem mode_realtime_ne_passthrough :
    (Mode.RealTime = Mode.PassThrough) = False := by simp

theorem mode_realtime_ne_sampling :
    (Mode.RealTime = Mode.Sampling) = False := by simp

theorem mode_sampling_ne_passthrough :
    (Mode.Sampling = Mode.PassThrough) = False := by simp

theorem mode_sampling_eq_sampling :
    (Mode.Sampling = Mode.Sampling) = True := by simp

theorem presentedFrames_cons_presented (t : ℚ) (f : Frame) (os : List Outcome) :
    presentedFrames (Outcome.presented t f :: os) = f :: presentedFrames os := rfl

theorem presentedFrames_cons_droppedFrame (os : List Outcome) :
    presentedFrames (Outcome.droppedFrame :: os) = presentedFrames os := rfl

theorem presentedTimes_cons_presented (t : ℚ) (f : Frame) (os : List Outcome) :
    presentedTimes (Outcome.presented t f :: os) = t :: presentedTimes os := rfl

theorem presentedTimes_cons_droppedFrame (os : List Outcome) :
    presentedTimes (Outcome.droppedFrame :: os) = presentedTimes os := rfl

theorem reportPassThrough_config (e : Engine) (now : ℚ) (f : Frame) :
    (reportPassThrough e now f).1.config = e.config := rfl

theorem reportSampling_config (e : Engine) (now : ℚ) (f : Frame) :
    (reportSampling e now f).1.config = e.config := by
  unfold reportSampling
  cases e.nextSampleTime
  · rfl
  · dsimp only
    split <;> rfl

theorem reportRealTime_config (e : Engine) (now : ℚ) (f : Frame) :
    (reportRealTime e now f).1.config = e.config := by
  unfold reportRealTime
  split_ifs <;> rfl

theorem report_config (e : Engine) (now : ℚ) (f : Frame) :
    (report e now f).1.config = e.config := by
  unfold report
  split_ifs <;>
    simp [reportPassThrough_config, reportSampling_config,
      reportRealTime_config, bumpSubmitted]

theorem report_passthrough_eq (e : Engine) (now : ℚ) (f : Frame)
    (hmode : e.config.mode = Mode.PassThrough) :
    report e now f = reportPassThrough (bumpSubmitted e) now f := by
  simp [report, hmode]

theorem report_sampling_eq (e : Engine) (now : ℚ) (f : Frame)
    (hmode : e.config.mode = Mode.Sampling) :
    report e now f = reportSampling (bumpSubmitted e) now f := by
  simp [report, hmode]

theorem report_realtime_eq (e : Engine) (now : ℚ) (f : Frame)
    (hmode : e.config.mode = Mode.RealTime) :
    report e now f = reportRealTime (bumpSubmitted e) now f := by
  simp [report, hmode]

theorem scheduledFrameRate_pos (cfg : ModeConfig) : 0 < scheduledFrameRate cfg := by
  unfold scheduledFrameRate
  split
  · norm_num [defaultFrameRate]
  · linarith [not_le.mp (by assumption : ¬ cfg.desiredFrameRate ≤ 0)]

theorem frameInterval_pos (cfg : ModeConfig) : 0 < frameInterval cfg := by
  unfold frameInterval
  exact one_div_pos.mpr (scheduledFrameRate_pos cfg)

/-- C8: clearing statistics twice equals clearing once; clearing zeroes every
counter and watermark while leaving the mode configuration and the buffer
untouched; dumping statistics returns the engine unchanged. -/
theorem clearStats_idempotent_dumpStats_pure (e : Engine) :
    clearStats (clearStats e) = clearStats e ∧
    (clearStats e).stats = Stats.zero ∧
    (clearStats e).config = e.config ∧
    (clearStats e).buffer = e.buffer ∧
    (dumpStats e).2 = e :=
  ⟨rfl, rfl, rfl, rfl, rfl⟩

/-- Closed instance of C8's theorem on a freshly constructed engine. -/
theorem clearStats_idempotent_dumpStats_pure_witness :
    clearStats (clearStats Engine.init) = clearStats Engine.init ∧
    (dumpStats Engine.init).2 = Engine.init :=
  ⟨(clearStats_idempotent_dumpStats_pure Engine.init).1,
   (clearStats_idempotent_dumpStats_pure Engine.init).2.2.2.2⟩

/-- C5: out-of-range configuration values are normalized, never rejected — a
non-positive real-time scale reads back as 1, a negative buffer request
restores the default desired length, and the zero frame-rate sentinel restores
the mode-dependent default rate. -/
theorem config_normalization :
    (∀ (e : Engine) (s : ℚ), s ≤ 0 →
        getRealTimeScale (setRealTimeScale s e) = 1) ∧
    (∀ (e : Engine) (b : ℚ), b < 0 →
        getDesiredBufferLengthInSec (setDesiredBufferLengthInSec b e)
          = defaultBufferLengthInSec) ∧
    (∀ e : Engine,
        getDesiredFrameRate (setDesiredFrameRate 0 e) = 0 ∧
        effectiveFrameRate (setDesiredFrameRate 0 e).config
          = modeDefaultRate e.config.mode) := by
  refine ⟨?_, ?_, ?_⟩
  · intro e s hs
    simp [getRealTimeScale, setRealTimeScale, hs]
  · intro e b hb
    simp [getDesiredBufferLengthInSec, setDesiredBufferLengthInSec, hb]
  · intro e
    constructor
    · simp [getDesiredFrameRate, setDesiredFrameRate]
    · cases h : e.config.mode <;>
        simp [setDesiredFrameRate, effectiveFrameRate, modeDefaultRate, h]

/-- Closed instance of C5's theorem at concrete out-of-range inputs. -/
theorem config_normalization_witness :
    ((-1 : ℚ) ≤ 0 ∧ getRealTimeScale (setRealTimeScale (-1) Engine.init) = 1) ∧
    ((-1 : ℚ) < 0 ∧
      getDesiredBufferLengthInSec (setDesiredBufferLengthInSec (-1) Engine.init)
        = defaultBufferLengthInSec) ∧
    (getDesiredFrameRate (setDesiredFrameRate 0 Engine.init) = 0 ∧
      effectiveFrameRate (setDesiredFrameRate 0 Engine.init).config
        = modeDefaultRate Engine.init.config.mode) :=
  ⟨⟨by norm_num, config_normalization.1 Engine.init (-1) (by norm_num)⟩,
   ⟨by norm_num, config_normalization.2.1 Engine.init (-1) (by norm_num)⟩,
   config_normalization.2.2 Engine.init⟩

/-- C6: with the frame-rate sentinel unset, the effective rate is unbounded
in PassThrough mode (and the PassThrough submit imposes no rate-limiting wait,
presenting at the call instant) and exactly 30 frames per second in Sampling
and RealTime modes. -/
theorem default_rate_by_mode :
    (∀ cfg : ModeConfig, cfg.desiredFrameRate = 0 →
        (cfg.mode = Mode.PassThrough → effectiveFrameRate cfg = none) ∧
        (cfg.mode = Mode.Sampling → effectiveFrameRate cfg = some 30) ∧
        (cfg.mode = Mode.RealTime → effectiveFrameRate cfg = some 30)) ∧
    (∀ (e : Engine) (now : ℚ) (f : Frame),
        e.config.mode = Mode.PassThrough → e.config.desiredFrameRate = 0 →
        (report e now f).2 = Outcome.presented now f) := by
  constructor
  · intro cfg hr
    refine ⟨?_, ?_, ?_⟩ <;> intro hm <;>
      simp [effectiveFrameRate, hr, hm, defaultFrameRate]
  · intro e now f hm hr
    have hrate : effectiveFrameRate (bumpSubmitted e).config = none := by
      simp [bumpSubmitted, effectiveFrameRate, hr, hm]
    have hpt : passThroughPresentTime (bumpSubmitted e) now = now := by
      unfold passThroughPresentTime
      cases hl : (bumpSubmitted e).lastPresentWall <;> simp [hrate]
    simp [report, hm, reportPassThrough, hpt]

/-- Closed instance of C6's theorem on a freshly constructed engine. -/
theorem default_rate_by_mode_witness :
    (Engine.init.config.desiredFrameRate = 0 ∧
      effectiveFrameRate Engine.init.config = none) ∧
    (report Engine.init 5 ⟨2, 7⟩).2 = Outcome.presented 5 ⟨2, 7⟩ :=
  ⟨⟨rfl, (default_rate_by_mode.1 Engine.init.config rfl).1 rfl⟩,
   default_rate_by_mode.2 Engine.init 5 ⟨2, 7⟩ rfl rfl⟩

/-- C4: the actual buffer length in frames is the desired length divided by
the frame interval, rounded to the nearest whole frame, floored at one frame
for any strictly positive request; with the default request it is 9 frames at
60 fps, 5 at 30 fps and 4 at 24 fps, and an explicit request of zero seconds
yields zero frames. -/
theorem buffer_length_rounding :
    (∀ cfg : ModeConfig, 0 < cfg.desiredBufferSeconds →
        actualBufferFrames cfg
          = (max 1 (round (cfg.desiredBufferSeconds / frameInterval cfg))).toNat ∧
        1 ≤ actualBufferFrames cfg) ∧
    getActualBufferLengthInFrames (setDesiredFrameRate 60 Engine.init) = 9 ∧
    getActualBufferLengthInFrames (setDesiredFrameRate 30 Engine.init) = 5 ∧
    getActualBufferLengthInFrames (setDesiredFrameRate 24 Engine.init) = 4 ∧
    getActualBufferLengthInFrames (setDesiredBufferLengthInSec 0 Engine.init)
      = 0 := by
  refine ⟨?_, ?_, ?_, ?_, ?_⟩
  case refine_2 =>
    norm_num [getActualBufferLengthInFrames, setDesiredFrameRate, Engine.init,
      actualBufferFrames, scheduledFrameRate, defaultBufferLengthInSec,
      defaultFrameRate, round_eq]
    rfl
  case refine_3 =>
    norm_num [getActualBufferLengthInFrames, setDesiredFrameRate, Engine.init,
      actualBufferFrames, scheduledFrameRate, defaultBufferLengthInSec,
      defaultFrameRate, round_eq]
    rfl
  case refine_4 =>
    norm_num [getActualBufferLengthInFrames, setDesiredFrameRate, Engine.init,
      actualBufferFrames, scheduledFrameRate, defaultBufferLengthInSec,
      defaultFrameRate, round_eq]
    rfl
  case refine_5 =>
    norm_num [getActualBufferLengthInFrames, setDesiredBufferLengthInSec,
      Engine.init, actualBufferFrames, scheduledFrameRate,
      defaultBufferLengthInSec, defaultFrameRate]
  intro cfg hd
  have hr : scheduledFrameRate cfg ≠ 0 := ne_of_gt (scheduledFrameRate_pos cfg)
  have hdiv : cfg.desiredBufferSeconds / frameInterval cfg
      = cfg.desiredBufferSeconds * scheduledFrameRate cfg := by
    rw [frameInterval, one_div, div_eq_mul_inv, inv_inv]
  constructor
  · rw [hdiv]
    unfold actualBufferFrames
    rw [if_neg (not_le.mpr hd)]
  · unfold actualBufferFrames
    rw [if_neg (not_le.mpr hd)]
    have h1 : (1 : ℤ) ≤ max 1 (round (cfg.desiredBufferSeconds *
        scheduledFrameRate cfg)) := le_max_left _ _
    omega

/-- Closed instance of C4's theorem at the default configuration. -/
theorem buffer_length_rounding_witness :
    (0 < Engine.init.config.desiredBufferSeconds ∧
      actualBufferFrames Engine.init.config
        = (max 1 (round (Engine.init.config.desiredBufferSeconds /
            frameInterval Engine.init.config))).toNat ∧
      1 ≤ actualBufferFrames Engine.init.config) ∧
    getActualBufferLengthInFrames (setDesiredFrameRate 60 Engine.init) = 9 :=
  ⟨⟨by norm_num [Engine.init, defaultBufferLengthInSec],
    buffer_length_rounding.1 Engine.init.config
      (by norm_num [Engine.init, defaultBufferLengthInSec])⟩,
   buffer_length_rounding.2.1⟩

/-- C1: in RealTime mode, a frame whose expected wall-clock time is already
past by more than one frame interval is presented immediately; every queued
frame whose expected time has also passed is dropped; the resync counter is
incremented; and the clock anchor is rewritten so that subsequent expected
times are computed relative to the frame just presented. -/
theorem realtime_late_frame_resync (e : Engine) (now : ℚ) (f : Frame)
    (hmode : e.config.mode = Mode.RealTime)
    (hlate : frameInterval e.config < now - expectedWallTime e f.simTime) :
    (report e now f).2 = Outcome.presented now f ∧
    (report e now f).1.buffer
      = e.buffer.filter (fun q => decide (now < expectedWallTime e q.simTime)) ∧
    (∀ q ∈ e.buffer, expectedWallTime e q.simTime ≤ now →
        q ∉ (report e now f).1.buffer) ∧
    (report e now f).1.stats.resyncs = e.stats.resyncs + 1 ∧
    (report e now f).1.stats.rendered = e.stats.rendered + 1 ∧
    (report e now f).1.stats.submitted = e.stats.submitted + 1 ∧
    (report e now f).1.stats.dropped
      = e.stats.dropped
        + (e.buffer.length - (report e now f).1.buffer.length) ∧
    (report e now f).1.anchor = ⟨f.simTime, now⟩ ∧
    (∀ s : ℚ, expectedWallTime (report e now f).1 s
        = now + (s - f.simTime) / e.config.realTimeScale) := by
  have heq : report e now f = reportRealTime (bumpSubmitted e) now f :=
    report_realtime_eq e now f hmode
  have hlate2 : frameInterval (bumpSubmitted e).config
      < now - expectedWallTime (bumpSubmitted e) f.simTime := hlate
  rw [heq]
  unfold reportRealTime
  rw [if_pos hlate2]
  refine ⟨rfl, rfl, ?_, rfl, rfl, rfl, rfl, rfl, fun s => rfl⟩
  intro q hq hle hmem
  rw [List.mem_filter] at hmem
  exact absurd (of_decide_eq_true hmem.2) (not_lt.mpr hle)

/-- Closed instance of C1's theorem: a frame ten seconds late on a fresh
RealTime engine is presented at once and counted as a resync. -/
theorem realtime_late_frame_resync_witness :
    (setMode Mode.RealTime Engine.init).config.mode = Mode.RealTime ∧
    frameInterval (setMode Mode.RealTime Engine.init).config
      < 10 - expectedWallTime (setMode Mode.RealTime Engine.init) (0 : ℚ) ∧
    (report (setMode Mode.RealTime Engine.init) 10 ⟨0, 0⟩).2
      = Outcome.presented 10 ⟨0, 0⟩ ∧
    (report (setMode Mode.RealTime Engine.init) 10 ⟨0, 0⟩).1.stats.resyncs
      = Engine.init.stats.resyncs + 1 ∧
    (report (setMode Mode.RealTime Engine.init) 10 ⟨0, 0⟩).1.anchor
      = ⟨(0 : ℚ), 10⟩ := by
  have h1 : (setMode Mode.RealTime Engine.init).config.mode = Mode.RealTime :=
    rfl
  have h2 : frameInterval (setMode Mode.RealTime Engine.init).config
      < 10 - expectedWallTime (setMode Mode.RealTime Engine.init) (0 : ℚ) := by
    norm_num [frameInterval, scheduledFrameRate, setMode, Engine.init,
      expectedWallTime, defaultFrameRate]
  have h := realtime_late_frame_resync (setMode Mode.RealTime Engine.init)
    10 ⟨0, 0⟩ h1 h2
  exact ⟨h1, h2, h.1, h.2.2.2.1, h.2.2.2.2.2.2.2.1⟩

/-- C2: in PassThrough mode every submitted frame is presented, in submission
order, with no drops; the presented-frame count equals the submitted count. -/
theorem passthrough_presents_all (e : Engine) (calls : List (ℚ × Frame))
    (hmode : e.config.mode = Mode.PassThrough) :
    presentedFrames (runReports e calls).2 = calls.map Prod.snd ∧
    (presentedFrames (runReports e calls).2).length = calls.length := by
  suffices h : presentedFrames (runReports e calls).2 = calls.map Prod.snd by
    refine ⟨h, ?_⟩
    rw [h, List.length_map]
  induction calls generalizing e with
  | nil => simp [runReports, presentedFrames]
  | cons c rest ih =>
      have hout : (report e c.1 c.2).2
          = Outcome.presented (passThroughPresentTime e c.1) c.2 := by
        rw [report_passthrough_eq e c.1 c.2 hmode]
        rfl
      have hcfg : (report e c.1 c.2).1.config.mode = Mode.PassThrough := by
        rw [report_config]
        exact hmode
      simp only [runReports, List.map_cons]
      rw [hout, presentedFrames_cons_presented, ih _ hcfg]

/-- Closed instance of C2's theorem on a two-frame PassThrough trace. -/
theorem passthrough_presents_all_witness :
    Engine.init.config.mode = Mode.PassThrough ∧
    presentedFrames (runReports Engine.init [(0, ⟨0, 1⟩), (1, ⟨1, 2⟩)]).2
      = [⟨0, 1⟩, ⟨1, 2⟩] ∧
    (presentedFrames
        (runReports Engine.init [(0, ⟨0, 1⟩), (1, ⟨1, 2⟩)]).2).length = 2 := by
  have h := passthrough_presents_all Engine.init [(0, ⟨0, 1⟩), (1, ⟨1, 2⟩)] rfl
  exact ⟨rfl, h.1, h.2⟩

theorem report_buffer_cases (e : Engine) (now : ℚ) (f : Frame) :
    (report e now f).1.buffer = e.buffer ∨
    ((report e now f).1.buffer = e.buffer ++ [f] ∧
       e.buffer.length < actualBufferFrames e.config) ∨
    (report e now f).1.buffer
      = e.buffer.filter fun q => decide (now < expectedWallTime e q.simTime) := by
  unfold report
  split_ifs with h1 h2
  · left; rfl
  · left
    unfold reportSampling
    cases (bumpSubmitted e).nextSampleTime
    · rfl
    · dsimp only
      split <;> rfl
  · unfold reportRealTime
    split_ifs with hl hf hroom
    · right; right; rfl
    · right; left
      exact ⟨rfl, hroom⟩
    · left; rfl
    · left; rfl

/-- C7 (amended): a frame is enqueued only when occupancy is strictly below
the current capacity, so occupancy just after an enqueue never exceeds
capacity; frames are removed strictly in FIFO order; no operation reorders
queued frames; and configuration changes never evict queued frames, their
recomputed capacity mattering only for subsequent enqueues. -/
theorem buffer_discipline :
    (∀ (e : Engine) (now : ℚ) (f : Frame),
        e.buffer.length < (report e now f).1.buffer.length →
        e.buffer.length < actualBufferFrames e.config ∧
        (report e now f).1.buffer = e.buffer ++ [f] ∧
        (report e now f).1.buffer.length ≤ actualBufferFrames e.config) ∧
    (∀ (e : Engine) (now : ℚ) (f : Frame),
        List.Sublist (report e now f).1.buffer (e.buffer ++ [f])) ∧
    (∀ (e : Engine) (now : ℚ),
        List.Sublist (drainNext e now).1.buffer e.buffer) ∧
    (∀ (e : Engine) (now : ℚ) (h : Frame) (t : List Frame),
        e.buffer = h :: t →
        (drainNext e now).1.buffer = t ∧
        (drainNext e now).2 = Outcome.presented now h) ∧
    (∀ (e : Engine) (b : ℚ),
        (setDesiredBufferLengthInSec b e).buffer = e.buffer) ∧
    (∀ (e : Engine) (r : ℚ), (setDesiredFrameRate r e).buffer = e.buffer) ∧
    (∀ (e : Engine) (m : Mode), (setMode m e).buffer = e.buffer) := by
  refine ⟨?_, ?_, ?_, ?_, fun e b => rfl, fun e r => rfl, fun e m => rfl⟩
  · intro e now f hlen
    rcases report_buffer_cases e now f with h | ⟨h, hc⟩ | h
    · rw [h] at hlen
      exact absurd hlen (lt_irrefl _)
    · refine ⟨hc, h, ?_⟩
      rw [h, List.length_append, List.length_singleton]
      omega
    · rw [h] at hlen
      have := List.length_filter_le
        (fun q => decide (now < expectedWallTime e q.simTime)) e.buffer
      omega
  · intro e now f
    rcases report_buffer_cases e now f with h | ⟨h, _⟩ | h
    · rw [h]
      exact List.sublist_append_left e.buffer [f]
    · rw [h]
    · rw [h]
      exact (List.filter_sublist e.buffer).trans
        (List.sublist_append_left e.buffer [f])
  · intro e now
    rcases hb : e.buffer with _ | ⟨hd, tl⟩
    · have h1 : (drainNext e now).1 = e := by
        unfold drainNext
        rw [hb]
      rw [h1, hb]
    · have h1 : (drainNext e now).1.buffer = tl := by
        unfold drainNext
        rw [hb]
      rw [h1]
      exact List.Sublist.cons hd (List.Sublist.refl tl)
  · intro e now h t hb
    unfold drainNext
    rw [hb]
    exact ⟨rfl, rfl⟩

/-- Closed instance of C7's theorem: draining a two-frame buffer removes the
head frame and presents it. -/
theorem buffer_discipline_witness :
    ({Engine.init with buffer := [⟨1, 1⟩, ⟨2, 2⟩]} : Engine).buffer
        = ⟨1, 1⟩ :: [⟨2, 2⟩] ∧
    (drainNext {Engine.init with buffer := [⟨1, 1⟩, ⟨2, 2⟩]} 3).1.buffer
        = [⟨2, 2⟩] ∧
    (drainNext {Engine.init with buffer := [⟨1, 1⟩, ⟨2, 2⟩]} 3).2
        = Outcome.presented 3 ⟨1, 1⟩ := by
  have h := buffer_discipline.2.2.2.1
    {Engine.init with buffer := [⟨1, 1⟩, ⟨2, 2⟩]} 3 ⟨1, 1⟩ [⟨2, 2⟩] rfl
  exact ⟨rfl, h.1, h.2⟩

/-- C7 counterexample: occupancy can exceed capacity.  With capacity two
frames, enqueue two future frames in RealTime mode, then shrink the desired
buffer length so that the recomputed capacity is one: the two queued frames
remain, so the claimed invariant "occupancy never exceeds capacity" fails at
this reachable state. -/
theorem buffer_occupancy_exceeds_capacity_counterexample :
    (setDesiredBufferLengthInSec (1 / 30)
        (report (report
            (setDesiredBufferLengthInSec (1 / 15)
              (setMode Mode.RealTime Engine.init)) 0 ⟨10, 0⟩).1
          0 ⟨11, 1⟩).1).buffer.length = 2 ∧
    actualBufferFrames (setDesiredBufferLengthInSec (1 / 30)
        (report (report
            (setDesiredBufferLengthInSec (1 / 15)
              (setMode Mode.RealTime Engine.init)) 0 ⟨10, 0⟩).1
          0 ⟨11, 1⟩).1).config = 1 := by
  have s0 : setDesiredBufferLengthInSec (1 / 15)
        (setMode Mode.RealTime Engine.init)
      = (⟨⟨Mode.RealTime, 0, 1, 1 / 15⟩, [], ⟨0, 0⟩, none, none,
          ⟨0, 0, 0, 0, 0, 0⟩⟩ : Engine) := by
    norm_num [setDesiredBufferLengthInSec, setMode, Engine.init, Stats.zero]
  have s1 : (report (⟨⟨Mode.RealTime, 0, 1, 1 / 15⟩, [], ⟨0, 0⟩, none, none,
        ⟨0, 0, 0, 0, 0, 0⟩⟩ : Engine) 0 ⟨10, 0⟩).1
      = (⟨⟨Mode.RealTime, 0, 1, 1 / 15⟩, [⟨10, 0⟩], ⟨0, 0⟩, none, none,
          ⟨1, 0, 0, 0, 0, 1⟩⟩ : Engine) := by
    norm_num [report, reportRealTime, bumpSubmitted, expectedWallTime,
      frameInterval, scheduledFrameRate, actualBufferFrames,
      defaultFrameRate, round_eq, mode_realtime_ne_passthrough,
      mode_realtime_ne_sampling]
  have s2 : (report (⟨⟨Mode.RealTime, 0, 1, 1 / 15⟩, [⟨10, 0⟩], ⟨0, 0⟩, none,
        none, ⟨1, 0, 0, 0, 0, 1⟩⟩ : Engine) 0 ⟨11, 1⟩).1
      = (⟨⟨Mode.RealTime, 0, 1, 1 / 15⟩, [⟨10, 0⟩, ⟨11, 1⟩], ⟨0, 0⟩, none,
          none, ⟨2, 0, 0, 0, 0, 2⟩⟩ : Engine) := by
    norm_num [report, reportRealTime, bumpSubmitted, expectedWallTime,
      frameInterval, scheduledFrameRate, actualBufferFrames,
      defaultFrameRate, round_eq, mode_realtime_ne_passthrough,
      mode_realtime_ne_sampling]
  rw [s0, s1, s2]
  constructor
  · norm_num [setDesiredBufferLengthInSec]
  · norm_num [setDesiredBufferLengthInSec, actualBufferFrames,
      scheduledFrameRate, defaultFrameRate, round_eq]

theorem advanceSampleTime_ge_now (θ now iv : ℚ) (hiv : 0 < iv) :
    now ≤ advanceSampleTime θ now iv := by
  unfold advanceSampleTime
  split_ifs with h
  · linarith
  · have hc : (now - θ) / iv ≤ ((⌈(now - θ) / iv⌉ : ℤ) : ℚ) := Int.le_ceil _
    have h2 := (div_le_iff₀ hiv).mp hc
    linarith

theorem advanceSampleTime_ge_step (θ now iv : ℚ) (hiv : 0 < iv) :
    θ + iv ≤ advanceSampleTime θ now iv := by
  unfold advanceSampleTime
  split_ifs with h
  · linarith
  · have h1 : iv ≤ now - θ := by
      have := not_lt.mp h
      linarith
    have h2 : (1 : ℚ) ≤ (now - θ) / iv := (le_div_iff₀ hiv).mpr (by linarith)
    have h4 : (1 : ℚ) ≤ ((⌈(now - θ) / iv⌉ : ℤ) : ℚ) :=
      h2.trans (Int.le_ceil _)
    nlinarith

theorem twoApart_cons (iv a : ℚ) (l : List ℚ)
    (h1 : twoApart iv l) (h2 : ∀ t ∈ l.drop 1, a + iv ≤ t) :
    twoApart iv (a :: l) := by
  match l with
  | [] => exact trivial
  | [b] => exact trivial
  | b :: c :: rest => exact ⟨h2 c (by simp), h1⟩

theorem report_sampling_none (e : Engine) (now : ℚ) (f : Frame)
    (hmode : e.config.mode = Mode.Sampling) (hθ : e.nextSampleTime = none) :
    (report e now f).2 = Outcome.presented now f ∧
    (report e now f).1.nextSampleTime
      = some (now + frameInterval e.config) ∧
    (report e now f).1.config = e.config := by
  rw [report_sampling_eq e now f hmode]
  unfold reportSampling
  have hb : (bumpSubmitted e).nextSampleTime = e.nextSampleTime := rfl
  rw [hb, hθ]
  exact ⟨rfl, rfl, rfl⟩

theorem report_sampling_present (e : Engine) (now : ℚ) (f : Frame) (θ : ℚ)
    (hmode : e.config.mode = Mode.Sampling) (hθ : e.nextSampleTime = some θ)
    (hle : θ ≤ now) :
    (report e now f).2 = Outcome.presented now f ∧
    (report e now f).1.nextSampleTime
      = some (advanceSampleTime θ now (frameInterval e.config)) ∧
    (report e now f).1.config = e.config := by
  rw [report_sampling_eq e now f hmode]
  unfold reportSampling
  have hb : (bumpSubmitted e).nextSampleTime = e.nextSampleTime := rfl
  rw [hb, hθ]
  dsimp only
  rw [if_pos hle]
  exact ⟨rfl, rfl, rfl⟩

theorem report_sampling_drop (e : Engine) (now : ℚ) (f : Frame) (θ : ℚ)
    (hmode : e.config.mode = Mode.Sampling) (hθ : e.nextSampleTime = some θ)
    (hlt : now < θ) :
    (report e now f).2 = Outcome.droppedFrame ∧
    (report e now f).1.nextSampleTime = some θ ∧
    (report e now f).1.config = e.config ∧
    (report e now f).1.stats.dropped = e.stats.dropped + 1 ∧
    (report e now f).1.buffer = e.buffer ∧
    (report e now f).1.stats.rendered = e.stats.rendered ∧
    (report e now f).1.stats.submitted = e.stats.submitted + 1 := by
  rw [report_sampling_eq e now f hmode]
  unfold reportSampling
  have hb : (bumpSubmitted e).nextSampleTime = e.nextSampleTime := rfl
  rw [hb, hθ]
  dsimp only
  rw [if_neg (not_le.mpr hlt)]
  exact ⟨rfl, rfl, rfl, rfl, rfl, rfl, rfl⟩

theorem sampling_spacing_aux (calls : List (ℚ × Frame)) (e : Engine)
    (hmode : e.config.mode = Mode.Sampling) :
    twoApart (frameInterval e.config)
      (presentedTimes (runReports e calls).2) ∧
    (∀ θv, e.nextSampleTime = some θv →
      (∀ t ∈ (presentedTimes (runReports e calls).2).take 1, θv ≤ t) ∧
      (∀ t ∈ (presentedTimes (runReports e calls).2).drop 1,
         θv + frameInterval e.config ≤ t)) := by
  induction calls generalizing e with
  | nil =>
      refine ⟨by simp [runReports, presentedTimes, twoApart], ?_⟩
      intro θv hθ
      constructor <;> intro t ht <;>
        simp [runReports, presentedTimes] at ht
  | cons c rest ih =>
      have hiv : 0 < frameInterval e.config := frameInterval_pos e.config
      have hcfg : (report e c.1 c.2).1.config = e.config :=
        report_config e c.1 c.2
      have hmode1 : (report e c.1 c.2).1.config.mode = Mode.Sampling := by
        rw [hcfg]; exact hmode
      have hiv1 : frameInterval (report e c.1 c.2).1.config
          = frameInterval e.config := by rw [hcfg]
      have IH := ih (report e c.1 c.2).1 hmode1
      rw [hiv1] at IH
      simp only [runReports]
      rcases hθ0 : e.nextSampleTime with _ | θ
      · -- first call: present and initialize the threshold
        obtain ⟨ho, hnst, _⟩ := report_sampling_none e c.1 c.2 hmode hθ0
        rw [ho, presentedTimes_cons_presented]
        have IH2 := IH.2 (c.1 + frameInterval e.config) hnst
        constructor
        · refine twoApart_cons _ _ _ IH.1 ?_
          intro t ht
          have := IH2.2 t ht
          linarith
        · intro θv hv
          exact absurd hv (by simp)
      · rcases le_or_lt θ c.1 with hle | hlt
        · -- sample due: present and advance the threshold
          obtain ⟨ho, hnst, _⟩ :=
            report_sampling_present e c.1 c.2 θ hmode hθ0 hle
          rw [ho, presentedTimes_cons_presented]
          have IH2 := IH.2 (advanceSampleTime θ c.1 (frameInterval e.config))
            hnst
          have hadv1 : c.1 ≤ advanceSampleTime θ c.1 (frameInterval e.config) :=
            advanceSampleTime_ge_now θ c.1 _ hiv
          have hadv2 : θ + frameInterval e.config
              ≤ advanceSampleTime θ c.1 (frameInterval e.config) :=
            advanceSampleTime_ge_step θ c.1 _ hiv
          constructor
          · refine twoApart_cons _ _ _ IH.1 ?_
            intro t ht
            have := IH2.2 t ht
            linarith
          · intro θv hv
            injection hv with hv
            subst hv
            constructor
            · intro t ht
              simp only [List.take_succ_cons, List.take_zero,
                List.mem_singleton] at ht
              subst ht
              exact hle
            · intro t ht
              simp only [List.drop_succ_cons, List.drop_zero] at ht
              have hsplit : t ∈ (presentedTimes
                  (runReports (report e c.1 c.2).1 rest).2).take 1
                  ++ (presentedTimes
                  (runReports (report e c.1 c.2).1 rest).2).drop 1 := by
                rw [List.take_append_drop]
                exact ht
              rcases List.mem_append.mp hsplit with h | h
              · have := IH2.1 t h
                linarith
              · have := IH2.2 t h
                linarith
        · -- sample early: drop the frame, threshold unchanged
          obtain ⟨ho, hnst, _, _, _, _, _⟩ :=
            report_sampling_drop e c.1 c.2 θ hmode hθ0 hlt
          rw [ho, presentedTimes_cons_droppedFrame]
          refine ⟨IH.1, ?_⟩
          intro θv hv
          injection hv with hv
          subst hv
          exact IH.2 θ hnst

/-- C3 (amended): in Sampling mode a frame arriving before the next eligible
sample time is discarded, the dropped counter is incremented, and the call
returns immediately without blocking or touching the buffer or the threshold;
each presentation advances the eligibility threshold by at least one frame
interval, so presentations two positions apart are spaced by at least one
frame interval 1/R (consecutive presentations may be closer than 1/R when a
sample arrives part-way through an interval). -/
theorem sampling_drop_and_spacing :
    (∀ (e : Engine) (now : ℚ) (f : Frame) (θ : ℚ),
        e.config.mode = Mode.Sampling → e.nextSampleTime = some θ →
        now < θ →
        (report e now f).2 = Outcome.droppedFrame ∧
        (report e now f).1.stats.dropped = e.stats.dropped + 1 ∧
        (report e now f).1.stats.rendered = e.stats.rendered ∧
        (report e now f).1.buffer = e.buffer ∧
        (report e now f).1.nextSampleTime = e.nextSampleTime) ∧
    (∀ (e : Engine) (calls : List (ℚ × Frame)),
        e.config.mode = Mode.Sampling →
        twoApart (frameInterval e.config)
          (presentedTimes (runReports e calls).2)) := by
  constructor
  · intro e now f θ hmode hθ hlt
    obtain ⟨h1, h2, _, h4, h5, h6, _⟩ :=
      report_sampling_drop e now f θ hmode hθ hlt
    refine ⟨h1, h4, h6, h5, ?_⟩
    rw [h2, hθ]
  · intro e calls hmode
    exact (sampling_spacing_aux calls e hmode).1

/-- Closed instance of C3's theorem: an early frame on a Sampling engine with
threshold 5 is dropped and counted, and the empty trace satisfies the
spacing property. -/
theorem sampling_drop_and_spacing_witness :
    ((1 : ℚ) < 5 ∧
      (report (⟨⟨Mode.Sampling, 0, 1, 3 / 20⟩, [], ⟨0, 0⟩, some 5, none,
          Stats.zero⟩ : Engine) 1 ⟨0, 0⟩).2 = Outcome.droppedFrame ∧
      (report (⟨⟨Mode.Sampling, 0, 1, 3 / 20⟩, [], ⟨0, 0⟩, some 5, none,
          Stats.zero⟩ : Engine) 1 ⟨0, 0⟩).1.stats.dropped
        = Stats.zero.dropped + 1) ∧
    twoApart (frameInterval (⟨Mode.Sampling, 0, 1, 3 / 20⟩ : ModeConfig))
      (presentedTimes (runReports (⟨⟨Mode.Sampling, 0, 1, 3 / 20⟩, [], ⟨0, 0⟩,
        some 5, none, Stats.zero⟩ : Engine) []).2) := by
  have h := sampling_drop_and_spacing.1
    (⟨⟨Mode.Sampling, 0, 1, 3 / 20⟩, [], ⟨0, 0⟩, some 5, none,
      Stats.zero⟩ : Engine) 1 ⟨0, 0⟩ 5 rfl rfl (by norm_num)
  exact ⟨⟨by norm_num, h.1, h.2.1⟩,
    sampling_drop_and_spacing.2
      (⟨⟨Mode.Sampling, 0, 1, 3 / 20⟩, [], ⟨0, 0⟩, some 5, none,
        Stats.zero⟩ : Engine) [] rfl⟩

/-- C3 counterexample: with frame rate 1, frames arriving at 0, 3/2 and 2 are
all presented, and the last two presentations are only half a frame interval
apart, so the claimed minimum wall-clock gap of one frame interval between
consecutive presented frames fails on this run. -/
theorem sampling_consecutive_gap_counterexample :
    presentedTimes (runReports (⟨⟨Mode.Sampling, 1, 1, 3 / 20⟩, [], ⟨0, 0⟩,
        none, none, Stats.zero⟩ : Engine)
        [(0, ⟨0, 0⟩), (3 / 2, ⟨1, 1⟩), (2, ⟨2, 2⟩)]).2 = [0, 3 / 2, 2] ∧
    frameInterval (⟨Mode.Sampling, 1, 1, 3 / 20⟩ : ModeConfig) = 1 ∧
    ¬ consecGapsAtLeast 1 [0, 3 / 2, 2] := by
  have s1 : report (⟨⟨Mode.Sampling, 1, 1, 3 / 20⟩, [], ⟨0, 0⟩, none, none,
        Stats.zero⟩ : Engine) 0 ⟨0, 0⟩
      = ((⟨⟨Mode.Sampling, 1, 1, 3 / 20⟩, [], ⟨0, 0⟩, some 1, none,
          ⟨1, 1, 0, 0, 0, 0⟩⟩ : Engine), Outcome.presented 0 ⟨0, 0⟩) := by
    norm_num [report, reportSampling, bumpSubmitted, frameInterval,
      scheduledFrameRate, mode_sampling_ne_passthrough, Stats.zero]
  have s2 : report (⟨⟨Mode.Sampling, 1, 1, 3 / 20⟩, [], ⟨0, 0⟩, some 1, none,
        ⟨1, 1, 0, 0, 0, 0⟩⟩ : Engine) (3 / 2) ⟨1, 1⟩
      = ((⟨⟨Mode.Sampling, 1, 1, 3 / 20⟩, [], ⟨0, 0⟩, some 2, none,
          ⟨2, 2, 0, 0, 0, 0⟩⟩ : Engine), Outcome.presented (3 / 2) ⟨1, 1⟩) := by
    norm_num [report, reportSampling, bumpSubmitted, frameInterval,
      scheduledFrameRate, advanceSampleTime, mode_sampling_ne_passthrough,
      Stats.zero]
  have s3 : report (⟨⟨Mode.Sampling, 1, 1, 3 / 20⟩, [], ⟨0, 0⟩, some 2, none,
        ⟨2, 2, 0, 0, 0, 0⟩⟩ : Engine) 2 ⟨2, 2⟩
      = ((⟨⟨Mode.Sampling, 1, 1, 3 / 20⟩, [], ⟨0, 0⟩, some 3, none,
          ⟨3, 3, 0, 0, 0, 0⟩⟩ : Engine), Outcome.presented 2 ⟨2, 2⟩) := by
    norm_num [report, reportSampling, bumpSubmitted, frameInterval,
      scheduledFrameRate, advanceSampleTime, mode_sampling_ne_passthrough,
      Stats.zero]
  have hrun : (runReports (⟨⟨Mode.Sampling, 1, 1, 3 / 20⟩, [], ⟨0, 0⟩,
        none, none, Stats.zero⟩ : Engine)
        [(0, ⟨0, 0⟩), (3 / 2, ⟨1, 1⟩), (2, ⟨2, 2⟩)]).2
      = [Outcome.presented 0 ⟨0, 0⟩, Outcome.presented (3 / 2) ⟨1, 1⟩,
         Outcome.presented 2 ⟨2, 2⟩] := by
    simp only [runReports, s1, s2, s3]
  refine ⟨by rw [hrun]; rfl, by norm_num [frameInterval, scheduledFrameRate],
    ?_⟩
  norm_num [consecGapsAtLeast]

namespace Geom

/-- C10: for every vector with a finite nonzero norm, the explicit UnitVec3
constructor stores the vector divided by its norm and the stored direction
has unit length; the default constructor fills the direction with NaN, so a
default-constructed UnitVec3 does not satisfy the unit-norm invariant. -/
theorem unitVec3_invariant :
    (∀ v : Vec3, (Vec3.norm v).isNaN = false → (Vec3.norm v).val ≠ 0 →
        (UnitVec3.ofVec3 v).dir = v.divScalar (Vec3.norm v) ∧
        Vec3.norm (UnitVec3.ofVec3 v).dir = finR 1) ∧
    (UnitVec3.mkDefault.dir.x = nanR ∧ UnitVec3.mkDefault.dir.y = nanR ∧
      UnitVec3.mkDefault.dir.z = nanR ∧
      (Vec3.norm UnitVec3.mkDefault.dir).isNaN = true ∧
      Vec3.norm UnitVec3.mkDefault.dir ≠ finR 1) := by
  constructor
  · intro v hn hnz
    refine ⟨rfl, ?_⟩
    obtain ⟨⟨nx, x⟩, ⟨ny, y⟩, ⟨nz, z⟩⟩ := v
    simp only [Vec3.norm, SReal.add, SReal.mul, SReal.sqrt, Bool.or_self,
      Bool.or_eq_false_iff, decide_eq_false_iff_not, not_lt] at hn
    obtain ⟨⟨hx, hy, hz⟩, hS0⟩ := hn
    subst hx
    subst hy
    subst hz
    have hS0 : (0 : ℝ) ≤ x * x + (y * y + z * z) := hS0
    have hnz2 : Real.sqrt (x * x + (y * y + z * z)) ≠ 0 := hnz
    have hSne : x * x + (y * y + z * z) ≠ 0 := by
      intro h
      exact hnz2 (by rw [h, Real.sqrt_zero])
    have hnn : Real.sqrt (x * x + (y * y + z * z))
        * Real.sqrt (x * x + (y * y + z * z)) = x * x + (y * y + z * z) :=
      Real.mul_self_sqrt hS0
    have hnorm : Vec3.norm ⟨⟨false, x⟩, ⟨false, y⟩, ⟨false, z⟩⟩
        = ⟨false, Real.sqrt (x * x + (y * y + z * z))⟩ := by
      simp only [Vec3.norm, SReal.add, SReal.mul, SReal.sqrt, Bool.or_self,
        Bool.false_or]
      rw [decide_eq_false (not_lt.mpr hS0)]
    have hdiv : Vec3.divScalar ⟨⟨false, x⟩, ⟨false, y⟩, ⟨false, z⟩⟩
        ⟨false, Real.sqrt (x * x + (y * y + z * z))⟩
        = ⟨⟨false, x / Real.sqrt (x * x + (y * y + z * z))⟩,
           ⟨false, y / Real.sqrt (x * x + (y * y + z * z))⟩,
           ⟨false, z / Real.sqrt (x * x + (y * y + z * z))⟩⟩ := by
      simp only [Vec3.divScalar, SReal.div, Bool.or_self, Bool.false_or]
      rw [decide_eq_false hnz2]
    have hval : x / Real.sqrt (x * x + (y * y + z * z))
          * (x / Real.sqrt (x * x + (y * y + z * z)))
        + (y / Real.sqrt (x * x + (y * y + z * z))
          * (y / Real.sqrt (x * x + (y * y + z * z)))
          + z / Real.sqrt (x * x + (y * y + z * z))
            * (z / Real.sqrt (x * x + (y * y + z * z)))) = 1 := by
      rw [div_mul_div_comm, div_mul_div_comm, div_mul_div_comm,
        div_add_div_same, div_add_div_same, hnn, div_self hSne]
    have hofs : (UnitVec3.ofVec3 ⟨⟨false, x⟩, ⟨false, y⟩, ⟨false, z⟩⟩).dir
        = Vec3.divScalar ⟨⟨false, x⟩, ⟨false, y⟩, ⟨false, z⟩⟩
            (Vec3.norm ⟨⟨false, x⟩, ⟨false, y⟩, ⟨false, z⟩⟩) := rfl
    rw [hofs, hnorm, hdiv]
    simp only [Vec3.norm, SReal.add, SReal.mul, SReal.sqrt, Bool.or_self,
      Bool.false_or, finR]
    rw [hval, decide_eq_false (by norm_num : ¬ (1 : ℝ) < 0), Real.sqrt_one]
  · have htop : (Vec3.norm UnitVec3.mkDefault.dir).isNaN = true := by
      simp [UnitVec3.mkDefault, Vec3.norm, SReal.add, SReal.mul, SReal.sqrt,
        nanR]
    refine ⟨rfl, rfl, rfl, htop, ?_⟩
    intro h
    rw [h] at htop
    simp [finR] at htop

/-- Closed instance of C10's theorem at the unit x-direction vector. -/
theorem unitVec3_invariant_witness :
    ((Vec3.norm ⟨finR 1, finR 0, finR 0⟩).isNaN = false ∧
      (Vec3.norm ⟨finR 1, finR 0, finR 0⟩).val ≠ 0) ∧
    Vec3.norm (UnitVec3.ofVec3 ⟨finR 1, finR 0, finR 0⟩).dir = finR 1 := by
  have h1 : (Vec3.norm ⟨finR 1, finR 0, finR 0⟩).isNaN = false := by
    norm_num [Vec3.norm, SReal.add, SReal.mul, SReal.sqrt, finR]
  have h2 : (Vec3.norm ⟨finR 1, finR 0, finR 0⟩).val ≠ 0 := by
    norm_num [Vec3.norm, SReal.add, SReal.mul, SReal.sqrt, finR,
      Real.sqrt_one]
  exact ⟨⟨h1, h2⟩, (unitVec3_invariant.1 ⟨finR 1, finR 0, finR 0⟩ h1 h2).2⟩

end Geom

end SimbodyViz
